import Mathlib

/-!
# MaxxRTOS kernel memory manager (k_mem.c)

A shallow embedding of `src/manual_code/lab1/RTX-App/src/kernel/k_mem.c`: the buddy
allocator's pool creation, allocation, deallocation and coalescing, the dump of the free
lists and the two functions that hand out the static stacks, read statement by statement
from the C source.

Modelling conventions.

* The target is a 32-bit ARM (Cortex-A9): `U32`, `BOOL`, `size_t` and pointers are 32-bit
  words, so every sum, product and shift is taken modulo `2^32`.
* Memory is a map from byte address to the 32-bit word stored there.  A `header_t` at
  address `a` is the five words at `a`, `a+4`, `a+8`, `a+12`, `a+16` (`size`, `is_free`,
  `order`, `prev`, `next`, in the order the struct declares them), so headers closer than
  20 bytes to each other share words, as they do on the machine.  Every word is keyed by
  its byte address, which is exact for the 4-byte-aligned accesses the allocator makes.
* `free_list` is the one static array of list heads that every function of the file uses.
  The C array has the `MAX_ORDER + 1` slots `0..MAX_ORDER`, and `free_list i` for
  `i ≤ MAX_ORDER` is slot `i`.  The source indexes the array with orders it never compares
  with `MAX_ORDER`.  An access with a larger index is outside the array, which C leaves
  undefined: on the machine it hits the word that lies where slot `i` would be, a word of
  some other object of the program.  The model sets the flag `oob` of the state at every
  such access and makes no statement about the object that word belongs to; a run that
  ends with `oob = false` never left the array, and only of such a run does the model
  describe the program.  The store that ends `k_mpool_create` is not kept when it is
  outside the array: the array stays as the loop before it left it.  `merge_blocks` and
  `k_mpool_alloc` read and write a head several times in one call, and for them
  `free_list i` with `i > MAX_ORDER` stands for the word behind the array.  The array
  itself lives outside the modelled memory.
* `NULL` is address `0`, `TRUE` is `1`, `FALSE` is `0`.
* A loop or recursion of the source that need not end takes a `fuel` argument and returns
  `none` when the fuel runs out before the source would return.
* Where the file is not valid C as it stands, the model takes the evident reading:
  `free_list`, declared `static` inside `k_mpool_create`, is the array every function
  names; a pointer in `block ^ block->size` and in `block < buddy_address` is its 32-bit
  address; the statement `block = (header_t*)(ptr-HEADER_SIZE)` of `k_mpool_dealloc`,
  which lacks its semicolon, subtracts `HEADER_SIZE` bytes.  Arithmetic on a `header_t *`
  is scaled by `sizeof(header_t)` as C scales it.
* Output to the console (`printf`) is not part of the state and is left out.
* The arrays `g_k_stacks` and `g_p_stacks` are known by their base addresses; a row of
  `SIZE >> 2` elements of type `U32` takes `(SIZE >> 2) * 4` bytes.
-/

namespace MaxxRTOS

/-- The constants that `k_mem.c` takes from the kernel headers (`k_inc.h`, `k_mem.h`),
which are not part of the sources at hand: they are parameters of the model. -/
structure Config where
  RAM1_START : Nat
  RAM1_END : Nat
  RAM2_START : Nat
  RAM2_END : Nat
  IRAM1_SIZE : Nat
  IRAM1_SIZE_LOG2 : Nat
  MIN_BLK_SIZE : Nat
  MPID_IRAM1 : Int
  MPID_IRAM2 : Int
  BUDDY : Int
  RTX_OK : Int
  RTX_ERR : Int
  EINVAL : Int
  ENOMEM : Int
  EFAULT : Int

/-- The number of values of a 32-bit word, `2^32`. -/
def WORD : Nat := 4294967296

/-- The macro `#define MAX_ORDER IRAM1_SIZE_LOG2`. -/
def MAX_ORDER (cfg : Config) : Nat := cfg.IRAM1_SIZE_LOG2

/-- The macro `#define HEADER_SIZE sizeof(header_t)`: five 32-bit fields. -/
def HEADER_SIZE : Nat := 20

/-- Byte offset of `header_t.size`. -/
def OFF_SIZE : Nat := 0

/-- Byte offset of `header_t.is_free`. -/
def OFF_IS_FREE : Nat := 4

/-- Byte offset of `header_t.order`. -/
def OFF_ORDER : Nat := 8

/-- Byte offset of `header_t.prev`. -/
def OFF_PREV : Nat := 12

/-- Byte offset of `header_t.next`. -/
def OFF_NEXT : Nat := 16

/-- The kernel state the file works on: word memory, the static `free_list` array of
heads, `errno`, and the flag `oob`, which is `true` once `free_list` has been indexed
outside its `MAX_ORDER + 1` slots. -/
structure State where
  mem : Nat → Nat
  free_list : Nat → Nat
  errno : Int
  oob : Bool

/-- Read the 32-bit word at byte address `a`. -/
def load (m : Nat → Nat) (a : Nat) : Nat := m (a % WORD) % WORD

/-- Write the 32-bit word `v` at byte address `a`. -/
def store (m : Nat → Nat) (a v : Nat) : Nat → Nat :=
  fun x => if x = a % WORD then v % WORD else m x

/-- The assignment `free_list[i].head = v`. -/
def setHead (fl : Nat → Nat) (i v : Nat) : Nat → Nat :=
  fun j => if j = i then v else fl j

/-- An index into `free_list` is outside the array: the array has the slots
`0..MAX_ORDER`. -/
def outside (cfg : Config) (i : Nat) : Bool := decide (MAX_ORDER cfg < i)

/-- The field `h->size`. -/
def hdr_size (m : Nat → Nat) (h : Nat) : Nat := load m (h + OFF_SIZE)

/-- The field `h->is_free`. -/
def hdr_is_free (m : Nat → Nat) (h : Nat) : Nat := load m (h + OFF_IS_FREE)

/-- The field `h->order`. -/
def hdr_order (m : Nat → Nat) (h : Nat) : Nat := load m (h + OFF_ORDER)

/-- The field `h->prev`. -/
def hdr_prev (m : Nat → Nat) (h : Nat) : Nat := load m (h + OFF_PREV)

/-- The field `h->next`. -/
def hdr_next (m : Nat → Nat) (h : Nat) : Nat := load m (h + OFF_NEXT)

/-- The loop of `prv_align_to_power_of_two`: `while (power_of_two < val) power_of_two <<= 1;`
on a `U32`.  One unit of fuel pays for one test of the loop condition. -/
def prv_align_loop (val : Nat) : Nat → Nat → Option Nat
  | 0, _ => none
  | fuel + 1, power_of_two =>
    if power_of_two < val then prv_align_loop val fuel ((power_of_two * 2) % WORD)
    else some power_of_two

/-- The function `static U32 prv_align_to_power_of_two(U32 val)`. -/
def prv_align_to_power_of_two (fuel val : Nat) : Option Nat :=
  prv_align_loop val fuel 1

/-- The loop of `prv_calculate_max_order`: `while (val >>= 1) order++;`.  The first
argument bounds the number of iterations. -/
def prv_order_loop : Nat → Nat → Nat → Nat
  | 0, _, order => order
  | n + 1, val, order =>
    if val / 2 ≠ 0 then prv_order_loop n (val / 2) ((order + 1) % WORD) else order

/-- The function `static U32 prv_calculate_max_order(U32 val)`.  The loop halves `val`
until it is zero, which takes fewer than `val` rounds (none for `val = 0`), so `val`
rounds are enough and the function is total. -/
def prv_calculate_max_order (val : Nat) : Nat := prv_order_loop val val 0

/-- The loop of `find_smallest_free_block`, from index `i` on, `n` indices to go:
`if (!free_list[i].head) return free_list[i].head;`. -/
def find_loop (cfg : Config) (fl : Nat → Nat) : Nat → Nat → Nat
  | 0, _ => 0
  | n + 1, i =>
    if i ≤ MAX_ORDER cfg then
      if fl i = 0 then fl i else find_loop cfg fl n (i + 1)
    else 0

/-- The function `static header_t* find_smallest_free_block(U32 actual_size)`: the loop
runs over `i = block_order, ..., MAX_ORDER`, at most `MAX_ORDER + 1 - block_order` rounds,
and `return NULL` follows it. -/
def find_smallest_free_block (cfg : Config) (s : State) (actual_size : Nat) : Nat :=
  let block_order := prv_calculate_max_order actual_size
  find_loop cfg s.free_list (MAX_ORDER cfg + 1 - block_order) block_order

/-- Step 4a of `k_mpool_alloc`, the body of `if (suitable_block->size > actual_size)`.
`allocated_block + buddy_size` is arithmetic on a `header_t *`, so it advances by
`buddy_size * sizeof(header_t)` bytes. -/
def alloc_split (cfg : Config) (s : State) (allocated_block actual_size : Nat) : State :=
  let buddy_order := (prv_calculate_max_order actual_size + WORD - 1) % WORD
  let buddy_size := hdr_size s.mem allocated_block / 2
  let buddy_block := (allocated_block + buddy_size * HEADER_SIZE) % WORD
  let m1 := store s.mem (buddy_block + OFF_ORDER) buddy_order
  let m2 := store m1 (buddy_block + OFF_SIZE) buddy_size
  let m3 := store m2 (buddy_block + OFF_IS_FREE) 1
  let m4 := store m3 (buddy_block + OFF_PREV) 0
  let m5 := store m4 (buddy_block + OFF_NEXT) (s.free_list buddy_order)
  let m6 := if s.free_list buddy_order ≠ 0
    then store m5 (s.free_list buddy_order + OFF_PREV) buddy_block else m5
  let fl1 := setHead s.free_list buddy_order buddy_block
  let m7 := store m6 (allocated_block + OFF_SIZE) buddy_size
  let m8 := store m7 (allocated_block + OFF_ORDER) buddy_order
  { s with mem := m8, free_list := fl1, oob := s.oob || outside cfg buddy_order }

/-- Steps 4b and 4c of `k_mpool_alloc`: mark the block used and unlink it from its free
list. -/
def alloc_unlink (cfg : Config) (s : State) (allocated_block : Nat) : State :=
  let m1 := store s.mem (allocated_block + OFF_IS_FREE) 0
  let m2 := if hdr_prev m1 allocated_block ≠ 0
    then store m1 (hdr_prev m1 allocated_block + OFF_NEXT) (hdr_next m1 allocated_block)
    else m1
  let m3 := if hdr_next m2 allocated_block ≠ 0
    then store m2 (hdr_next m2 allocated_block + OFF_PREV) (hdr_prev m2 allocated_block)
    else m2
  let fl1 := if s.free_list (hdr_order m3 allocated_block) = allocated_block
    then setHead s.free_list (hdr_order m3 allocated_block) (hdr_next m3 allocated_block)
    else s.free_list
  let oob1 := s.oob || outside cfg (hdr_order m3 allocated_block)
  { s with mem := m3, free_list := fl1, oob := oob1 }

/-- The function `void *k_mpool_alloc(mpool_t mpid, size_t size)`.  The result is the
returned pointer (`0` for `NULL`) and the state left behind; `none` when the rounding loop
does not end within the fuel.  The returned pointer `allocated_block + HEADER_SIZE` is
again arithmetic on a `header_t *`. -/
def k_mpool_alloc (cfg : Config) (fuel : Nat) (s : State) (_mpid : Int) (size : Nat) :
    Option (Nat × State) :=
  if size = 0 then some (0, s)
  else
    match prv_align_to_power_of_two fuel ((size + HEADER_SIZE) % WORD) with
    | none => none
    | some actual_size =>
      if actual_size > cfg.IRAM1_SIZE then some (0, { s with errno := cfg.ENOMEM })
      else
        let suitable_block := find_smallest_free_block cfg s actual_size
        if suitable_block = 0 then some (0, s)
        else
          let s1 := if hdr_size s.mem suitable_block > actual_size
            then alloc_split cfg s suitable_block actual_size else s
          let s2 := alloc_unlink cfg s1 suitable_block
          some ((suitable_block + HEADER_SIZE * HEADER_SIZE) % WORD, s2)

/-- The else branch of `merge_blocks`: put `block` at the head of the list of its order.
Every `block->order` is read from memory anew, as the source does, and each of them
indexes `free_list`. -/
def merge_insert (cfg : Config) (s : State) (m : Nat → Nat) (block : Nat) : State :=
  let m1 := store m (block + OFF_NEXT) (s.free_list (hdr_order m block))
  let m2 := store m1 (block + OFF_PREV) 0
  let m3 := if s.free_list (hdr_order m2 block) ≠ 0
    then store m2 (s.free_list (hdr_order m2 block) + OFF_PREV) block else m2
  let fl1 := setHead s.free_list (hdr_order m3 block) block
  let oob1 := s.oob || outside cfg (hdr_order m block) || outside cfg (hdr_order m2 block)
    || outside cfg (hdr_order m3 block)
  { s with mem := m3, free_list := fl1, oob := oob1 }

/-- The block "Remove buddy from free list" of `merge_blocks`, run on memory `m`:
the buddy's neighbours are linked to each other, and the head of list `buddy_order`, when
it is not `NULL`, becomes the buddy's `next`. -/
def merge_unlink (cfg : Config) (s : State) (m : Nat → Nat)
    (buddy_order buddy_block : Nat) : State :=
  let m2 := if hdr_prev m buddy_block ≠ 0
    then store m (hdr_prev m buddy_block + OFF_NEXT) (hdr_next m buddy_block) else m
  let m3 := if hdr_next m2 buddy_block ≠ 0
    then store m2 (hdr_next m2 buddy_block + OFF_PREV) (hdr_prev m2 buddy_block) else m2
  let fl1 := if s.free_list buddy_order ≠ 0
    then setHead s.free_list buddy_order (hdr_next m3 buddy_block) else s.free_list
  { s with mem := m3, free_list := fl1, oob := s.oob || outside cfg buddy_order }

/-- The block "Merge blocks" of `merge_blocks` for the header `h` that survives:
`h->size *= 2; h->order++;`. -/
def merge_grow (m : Nat → Nat) (h : Nat) : Nat → Nat :=
  let m1 := store m (h + OFF_SIZE) (hdr_size m h * 2)
  store m1 (h + OFF_ORDER) (hdr_order m1 h + 1)

/-- The function `static void merge_blocks(header_t* block)`.  The condition
`(buddy_block->order = buddy_order) && (buddy_block->is_free)` first stores `buddy_order`
in the buddy header and is true when the stored value and the buddy's `is_free` are both
non-zero.  One unit of fuel pays for one call. -/
def merge_blocks (cfg : Config) : Nat → State → Nat → Option State
  | 0, _, _ => none
  | fuel + 1, s, block =>
    let buddy_order := hdr_order s.mem block
    let buddy_address := block ^^^ hdr_size s.mem block
    let buddy_block := buddy_address
    let m1 := store s.mem (buddy_block + OFF_ORDER) buddy_order
    if buddy_order ≠ 0 ∧ hdr_is_free m1 buddy_block ≠ 0 then
      let s1 := merge_unlink cfg s m1 buddy_order buddy_block
      if block < buddy_address then
        merge_blocks cfg fuel { s1 with mem := merge_grow s1.mem block } block
      else
        merge_blocks cfg fuel { s1 with mem := merge_grow s1.mem buddy_block } buddy_block
    else
      some (merge_insert cfg s m1 block)

/-- Step 3 of `k_mpool_dealloc`, the range check; `true` when the call goes on.  For
`MPID_IRAM1` the pointer `ptr` is compared, for the other pool the source compares `&ptr`,
the address of the parameter itself, here `ptr_addr`. -/
def dealloc_in_range (cfg : Config) (mpid : Int) (ptr ptr_addr : Nat) : Bool :=
  if mpid = cfg.MPID_IRAM1 then
    !(decide (ptr < cfg.RAM1_START) || decide (ptr > cfg.RAM1_END))
  else
    !(decide (ptr_addr < cfg.RAM2_START) || decide (ptr_addr > cfg.RAM2_END))

/-- The function `int k_mpool_dealloc(mpool_t mpid, void *ptr)`.  `ptr_addr` is the
address at which the parameter `ptr` is stored during the call.  The result is the
returned status and the state left behind; `none` when `merge_blocks` does not return
within the fuel. -/
def k_mpool_dealloc (cfg : Config) (fuel : Nat) (s : State) (mpid : Int)
    (ptr ptr_addr : Nat) : Option (Int × State) :=
  if ptr = 0 then some (cfg.RTX_OK, s)
  else if mpid ≠ cfg.MPID_IRAM1 ∧ mpid ≠ cfg.MPID_IRAM2 then
    some (cfg.RTX_ERR, { s with errno := cfg.EINVAL })
  else if dealloc_in_range cfg mpid ptr ptr_addr = false then
    some (cfg.RTX_ERR, { s with errno := cfg.EFAULT })
  else
    let block := (ptr + WORD - HEADER_SIZE) % WORD
    if hdr_is_free s.mem block ≠ 0 then some (cfg.RTX_OK, s)
    else
      let m1 := store s.mem (block + OFF_IS_FREE) 1
      match merge_blocks cfg fuel { s with mem := m1 } block with
      | none => none
      | some s1 => some (cfg.RTX_OK, s1)

/-- Step 6 of `k_mpool_create`, the loop
`for (int i = 0; i <= MAX_ORDER; i++) free_list[i].head = NULL;`, the first `n` rounds
of it. -/
def clear_heads (fl : Nat → Nat) : Nat → Nat → Nat
  | 0 => fl
  | n + 1 => setHead (clear_heads fl n) n 0

/-- Steps 3 to 6 of `k_mpool_create` once the total size is rounded to `total`: the order,
the first header, the `block_t` behind it, and the free-list array.  The loop of step 6
stays inside the array.  The store `free_list[max_order].head = first_header` after it
fills slot `max_order` when `max_order ≤ MAX_ORDER`; otherwise it is outside the array,
on a word of another object: the array stays as the loop left it and `oob` is set. -/
def create_init (cfg : Config) (s : State) (start total : Nat) : State :=
  let max_order := prv_calculate_max_order total
  let first_header := start
  let m1 := store s.mem (first_header + OFF_SIZE) total
  let m2 := store m1 (first_header + OFF_IS_FREE) 1
  let m3 := store m2 (first_header + OFF_ORDER) max_order
  let m4 := store m3 (first_header + OFF_PREV) 0
  let m5 := store m4 (first_header + OFF_NEXT) 0
  let first_block := start + HEADER_SIZE
  let m6 := store m5 first_block first_header
  let fl1 := clear_heads s.free_list (MAX_ORDER cfg + 1)
  let fl2 := if max_order ≤ MAX_ORDER cfg then setHead fl1 max_order first_header else fl1
  { s with mem := m6, free_list := fl2, oob := s.oob || outside cfg max_order }

/-- The function `mpool_t k_mpool_create(int algo, U32 start, U32 end)`.  The result is
the returned pool id (or `RTX_ERR`) and the state left behind; `none` when the rounding
loop does not end within the fuel. -/
def k_mpool_create (cfg : Config) (fuel : Nat) (s : State) (algo : Int)
    (start end_ : Nat) : Option (Int × State) :=
  if algo ≠ cfg.BUDDY then some (cfg.RTX_ERR, { s with errno := cfg.EINVAL })
  else if start ≠ cfg.RAM1_START ∧ start ≠ cfg.RAM2_START then
    some (cfg.RTX_ERR, { s with errno := cfg.EINVAL })
  else
    let mpid := if start = cfg.RAM1_START then cfg.MPID_IRAM1 else cfg.MPID_IRAM2
    let total_size := (end_ + WORD - start % WORD) % WORD
    if total_size < cfg.MIN_BLK_SIZE then some (cfg.RTX_ERR, { s with errno := cfg.EINVAL })
    else
      match prv_align_to_power_of_two fuel total_size with
      | none => none
      | some total => some (mpid, create_init cfg s start total)

/-- The function `int k_mem_init(int algo)`: `none` when one of the two pool creations
does not return within the fuel. -/
def k_mem_init (cfg : Config) (fuel : Nat) (s : State) (algo : Int) : Option (Int × State) :=
  match k_mpool_create cfg fuel s algo cfg.RAM1_START cfg.RAM1_END with
  | none => none
  | some (r1, s1) =>
    if r1 < 0 then some (cfg.RTX_ERR, s1)
    else
      match k_mpool_create cfg fuel s1 algo cfg.RAM2_START cfg.RAM2_END with
      | none => none
      | some (r2, s2) =>
        if r2 < 0 then some (cfg.RTX_ERR, s2) else some (cfg.RTX_OK, s2)

/-- A configuration for worked examples: two 4096-byte regions, the first the pool
`[0x1000, 0x2000)` of the specification's scenarios. -/
def demoCfg : Config where
  RAM1_START := 4096
  RAM1_END := 8192
  RAM2_START := 16384
  RAM2_END := 20480
  IRAM1_SIZE := 4096
  IRAM1_SIZE_LOG2 := 12
  MIN_BLK_SIZE := 32
  MPID_IRAM1 := 0
  MPID_IRAM2 := 1
  BUDDY := 0
  RTX_OK := 0
  RTX_ERR := -1
  EINVAL := 22
  ENOMEM := 12
  EFAULT := 14

/-- The state before anything ran: memory and heads all zero, `errno` zero. -/
def zeroState : State where
  mem := fun _ => 0
  free_list := fun _ => 0
  errno := 0
  oob := false

/-- The specification's `round_up_pow2`, as a relation: `p` is the smallest power of two
with `p ≥ n`. -/
def IsRoundUpPow2 (n p : Nat) : Prop :=
  (∃ k, p = 2 ^ k) ∧ n ≤ p ∧ ∀ j, n ≤ 2 ^ j → p ≤ 2 ^ j

/-- The free list starting at `head` is a `NULL`-terminated chain of `next` links through
exactly the nodes `nodes`, in this sequence. -/
def IsChain (m : Nat → Nat) : Nat → List Nat → Prop
  | head, [] => head = 0
  | head, x :: rest => head ≠ 0 ∧ x = head ∧ IsChain m (hdr_next m head) rest

instance decIsChain (m : Nat → Nat) : ∀ head nodes, Decidable (IsChain m head nodes)
  | head, [] => inferInstanceAs (Decidable (head = 0))
  | head, _ :: rest =>
    @instDecidableAnd _ _ inferInstance
      (@instDecidableAnd _ _ inferInstance (decIsChain m (hdr_next m head) rest))

/-- The constants of the kernel headers and the addresses of the two static arrays that
`k_alloc_k_stack` and `k_alloc_p_stack` use; they are not part of the sources at hand and
are parameters of the model. -/
structure StackConfig where
  MAX_TASKS : Nat
  NUM_TASKS : Nat
  KERN_STACK_SIZE : Nat
  PROC_STACK_SIZE : Nat
  g_k_stacks : Nat
  g_p_stacks : Nat
  EAGAIN : Int

/-- The function `U32* k_alloc_k_stack(task_t tid)`.  The result is the returned pointer
(`0` for `NULL`) and the value of `errno` afterwards.  `g_k_stacks[tid+1]` is the address
of row `tid + 1` of the array, a row being `KERN_STACK_SIZE >> 2` words of 4 bytes, and
`sp--` on a `U32 *` steps back 4 bytes. -/
def k_alloc_k_stack (cfg : StackConfig) (errno : Int) (tid : Nat) : Nat × Int :=
  if tid ≥ cfg.MAX_TASKS then (0, cfg.EAGAIN)
  else
    let sp := (cfg.g_k_stacks + (tid + 1) * ((cfg.KERN_STACK_SIZE >>> 2) * 4)) % WORD
    let sp1 := if sp &&& 4 ≠ 0 then (sp + WORD - 4) % WORD else sp
    (sp1, errno)

/-- The function `U32* k_alloc_p_stack(task_t tid)`, the same code over `g_p_stacks`,
`NUM_TASKS` and `PROC_STACK_SIZE`. -/
def k_alloc_p_stack (cfg : StackConfig) (errno : Int) (tid : Nat) : Nat × Int :=
  if tid ≥ cfg.NUM_TASKS then (0, cfg.EAGAIN)
  else
    let sp := (cfg.g_p_stacks + (tid + 1) * ((cfg.PROC_STACK_SIZE >>> 2) * 4)) % WORD
    let sp1 := if sp &&& 4 ≠ 0 then (sp + WORD - 4) % WORD else sp
    (sp1, errno)

/-- A stack configuration for worked examples: 4 kernel stacks of 512 bytes at `0x8000`,
3 process stacks of 256 bytes at `0x9000`. -/
def demoStacks : StackConfig where
  MAX_TASKS := 4
  NUM_TASKS := 3
  KERN_STACK_SIZE := 512
  PROC_STACK_SIZE := 256
  g_k_stacks := 32768
  g_p_stacks := 36864
  EAGAIN := 11

/-- The inner loop of `k_mpool_dump`, `while (curr_block) { num_free_blocks++;
curr_block = curr_block->next; }`, with the `U32` counter; the `printf` of the loop body
writes to the console only and is left out.  One unit of fuel pays for one test of the
loop condition. -/
def dump_list (m : Nat → Nat) : Nat → Nat → Nat → Option Nat
  | 0, _, _ => none
  | fuel + 1, curr_block, num_free_blocks =>
    if curr_block ≠ 0 then
      dump_list m fuel (hdr_next m curr_block) ((num_free_blocks + 1) % WORD)
    else some num_free_blocks

/-- The outer loop of `k_mpool_dump`, `for (U32 i = 0; i <= MAX_ORDER; i++)`, from index
`i` on with `n` rounds to go; every inner loop gets the fuel `fuel`. -/
def dump_orders (fuel : Nat) (s : State) : Nat → Nat → Nat → Option Nat
  | 0, _, num_free_blocks => some num_free_blocks
  | n + 1, i, num_free_blocks =>
    match dump_list s.mem fuel (s.free_list i) num_free_blocks with
    | none => none
    | some c => dump_orders fuel s n (i + 1) c

/-- The value of a `U32` returned as `int`. -/
def as_int (v : Nat) : Int :=
  if v < 2147483648 then (v : Int) else (v : Int) - 4294967296

/-- The function `int k_mpool_dump(mpool_t mpid)`.  The result is the returned count and
the state left behind; `none` when an inner loop does not end within the fuel. -/
def k_mpool_dump (cfg : Config) (fuel : Nat) (s : State) (mpid : Int) :
    Option (Int × State) :=
  if mpid ≠ cfg.MPID_IRAM1 ∧ mpid ≠ cfg.MPID_IRAM2 then some (0, s)
  else
    match dump_orders fuel s (MAX_ORDER cfg + 1) 0 0 with
    | none => none
    | some num_free_blocks => some (as_int num_free_blocks, s)

/-- The number of nodes of the lists `nodes i`, ..., `nodes (i + n - 1)` together. -/
def total_nodes (nodes : Nat → List Nat) : Nat → Nat → Nat
  | 0, _ => 0
  | n + 1, i => (nodes i).length + total_nodes nodes n (i + 1)

/-- The header invariant `size == 1 << order` (in 32 bits) on the headers at the
addresses `blocks`. -/
def SizeIsPow2Order (m : Nat → Nat) (blocks : List Nat) : Prop :=
  ∀ b ∈ blocks, hdr_size m b = (1 <<< hdr_order m b) % WORD

instance decSizeIsPow2Order (m : Nat → Nat) (blocks : List Nat) :
    Decidable (SizeIsPow2Order m blocks) :=
  inferInstanceAs (Decidable (∀ b ∈ blocks, hdr_size m b = (1 <<< hdr_order m b) % WORD))

/-- The addresses of the block headers of `splitBuddyState` and `usedBuddyState`; the
blocks tile the pool `[0x1000, 0x2000)`. -/
def splitBlocks : List Nat := [4096, 4160, 4192, 4224, 4352, 4608, 5120, 6144]

/-- A state of the pool `[0x1000, 0x2000)` in which the buddy address of an order-6 block
holds a free header of order 5: the block at `0x1000` (64 bytes, in use), the two 32-byte
halves of its buddy region at `0x1040` (free, the one node of list 5) and `0x1060` (in
use), and the blocks at `0x1080` (128 bytes), `0x1100` (256), `0x1200` (512), `0x1400`
(1024) and `0x1800` (2048), all in use. -/
def splitBuddyState : State where
  mem := fun x =>
    if x = 4096 then 64 else if x = 4104 then 6
    else if x = 4160 then 32 else if x = 4164 then 1 else if x = 4168 then 5
    else if x = 4192 then 32 else if x = 4200 then 5
    else if x = 4224 then 128 else if x = 4232 then 7
    else if x = 4352 then 256 else if x = 4360 then 8
    else if x = 4608 then 512 else if x = 4616 then 9
    else if x = 5120 then 1024 else if x = 5128 then 10
    else if x = 6144 then 2048 else if x = 6152 then 11
    else 0
  free_list := fun i => if i = 5 then 4160 else 0
  errno := 0
  oob := false

/-- The state `splitBuddyState` with the block at `0x1040` in use as well, so that no
list holds a node. -/
def usedBuddyState : State where
  mem := store splitBuddyState.mem (4160 + OFF_IS_FREE) 0
  free_list := fun _ => 0
  errno := 0
  oob := false

/-- The addresses of the block headers of `tailBuddyState`; the blocks tile the pool
`[0x1000, 0x2000)`. -/
def tailBlocks : List Nat := [4096, 4128, 4160, 4224, 4256, 4288, 4352, 4608, 5120, 6144]

/-- A state of the pool `[0x1000, 0x2000)` in which the free buddy is the last node of its
list: the block at `0x1000` (32 bytes, in use), list 5 made of the free block at `0x1080`
followed by the buddy at `0x1020`, and every other block in use. -/
def tailBuddyState : State where
  mem := fun x =>
    if x = 4096 then 32 else if x = 4104 then 5
    else if x = 4128 then 32 else if x = 4132 then 1 else if x = 4136 then 5
    else if x = 4140 then 4224
    else if x = 4160 then 64 else if x = 4168 then 6
    else if x = 4224 then 32 else if x = 4228 then 1 else if x = 4232 then 5
    else if x = 4240 then 4128
    else if x = 4256 then 32 else if x = 4264 then 5
    else if x = 4288 then 64 else if x = 4296 then 6
    else if x = 4352 then 256 else if x = 4360 then 8
    else if x = 4608 then 512 else if x = 4616 then 9
    else if x = 5120 then 1024 else if x = 5128 then 10
    else if x = 6144 then 2048 else if x = 6152 then 11
    else 0
  free_list := fun i => if i = 5 then 4224 else 0
  errno := 0
  oob := false

/-- The configuration `demoCfg` with the first pool at `[0x3000, 0x4000)`. -/
def highCfg : Config :=
  { demoCfg with RAM1_START := 12288, RAM1_END := 16384 }

/-- A state of the pool `[0x3000, 0x4000)` of `highCfg` with one block left in use: the
lower half at `0x3000` (2048 bytes, order 11, in use) and the upper half at `0x3800`
(free, the one node of list 11).  Outside the pool, the words at `0x2000` and `0x2004`
hold `below_size` and `below_free`; every other word is zero. -/
def lastBlockState (below_size below_free : Nat) : State where
  mem := fun x =>
    if x = 12288 then 2048 else if x = 12296 then 11
    else if x = 14336 then 2048 else if x = 14340 then 1 else if x = 14344 then 11
    else if x = 8192 then below_size else if x = 8196 then below_free
    else 0
  free_list := fun i => if i = 11 then 14336 else 0
  errno := 0
  oob := false

/-- The configuration `demoCfg` with a second region of 1024 bytes, `[0x4000, 0x4400)`;
`IRAM1_SIZE` stays 4096, the size of the first region. -/
def smallPoolCfg : Config :=
  { demoCfg with RAM2_END := 17408 }

/-- A state of the pool `[0x1000, 0x2000)` with two buddies of order 6 whose union has a
split buddy region: the block at `0x1000` (64 bytes, in use), its buddy at `0x1040` (64
bytes, free, the one node of list 6), and behind them the region `[0x1080, 0x1100)` of
the union's buddy, split into the blocks at `0x1080` (32 bytes, free, the one node of
list 5), `0x10A0` (32 bytes, in use) and `0x10C0` (64 bytes, in use).  The blocks at
`0x1100` (256 bytes), `0x1200` (512), `0x1400` (1024) and `0x1800` (2048) are in use. -/
def splitNeighbourState : State where
  mem := fun x =>
    if x = 4096 then 64 else if x = 4104 then 6
    else if x = 4160 then 64 else if x = 4164 then 1 else if x = 4168 then 6
    else if x = 4224 then 32 else if x = 4228 then 1 else if x = 4232 then 5
    else if x = 4256 then 32 else if x = 4264 then 5
    else if x = 4288 then 64 else if x = 4296 then 6
    else if x = 4352 then 256 else if x = 4360 then 8
    else if x = 4608 then 512 else if x = 4616 then 9
    else if x = 5120 then 1024 else if x = 5128 then 10
    else if x = 6144 then 2048 else if x = 6152 then 11
    else 0
  free_list := fun i => if i = 6 then 4160 else if i = 5 then 4224 else 0
  errno := 0
  oob := false

/-- The addresses of the block headers of `splitNeighbourState`; the blocks tile the pool
`[0x1000, 0x2000)`. -/
def neighbourBlocks : List Nat := [4096, 4160, 4224, 4256, 4288, 4352, 4608, 5120, 6144]

/-- Every header at a multiple of 32 that is marked free holds multiples of 32 in its
`size`, `prev` and `next` fields: block sizes are powers of two that leave room for the
20-byte header, and the links of a free block are `NULL` or addresses of blocks. -/
def AlignedFree (m : Nat → Nat) : Prop :=
  ∀ h, 32 ∣ h → h < WORD → hdr_is_free m h ≠ 0 →
    32 ∣ hdr_size m h ∧ 32 ∣ hdr_prev m h ∧ 32 ∣ hdr_next m h

theorem load_store_same (m : Nat → Nat) (a b v : Nat)
    (h : a % 4294967296 = b % 4294967296) :
    load (store m a v) b = v % 4294967296 := by
  simp [load, store, WORD, h]

theorem load_store_other (m : Nat → Nat) (a b v : Nat)
    (h : a % 4294967296 ≠ b % 4294967296) :
    load (store m a v) b = load m b := by
  have h2 : ¬ b % 4294967296 = a % 4294967296 := fun e => h e.symm
  simp [load, store, WORD, h2]

theorem clear_heads_apply (fl : Nat → Nat) (n i : Nat) :
    clear_heads fl n i = if i < n then 0 else fl i := by
  induction n with
  | zero => simp [clear_heads]
  | succ n ih =>
    simp only [clear_heads, setHead]
    by_cases h : i = n
    · simp [h]
    · rw [if_neg h, ih]
      by_cases h2 : i < n
      · have h3 : i < n + 1 := by omega
        simp [h2, h3]
      · have h3 : ¬ i < n + 1 := by omega
        simp [h2, h3]

/-! ## Address and order arithmetic -/

theorem prv_align_loop_reaches (n k : Nat) (hn : n ≤ 2 ^ k) (hk : k ≤ 31)
    (hlow : ∀ j, j < k → 2 ^ j < n) :
    ∀ d i fuel, i + d = k → d < fuel → prv_align_loop n fuel (2 ^ i) = some (2 ^ k) := by
  intro d
  induction d with
  | zero =>
    intro i fuel hi hf
    obtain ⟨f, rfl⟩ : ∃ f, fuel = f + 1 := ⟨fuel - 1, by omega⟩
    have hik : i = k := by omega
    subst hik
    have : ¬ 2 ^ i < n := by omega
    simp [prv_align_loop, this]
  | succ d ih =>
    intro i fuel hi hf
    obtain ⟨f, rfl⟩ : ∃ f, fuel = f + 1 := ⟨fuel - 1, by omega⟩
    have hlt : 2 ^ i < n := hlow i (by omega)
    have hpow : 2 ^ (i + 1) < WORD := by
      have h1 : 2 ^ (i + 1) ≤ 2 ^ 31 := Nat.pow_le_pow_right (by decide) (by omega)
      have h2 : (2 : Nat) ^ 31 < WORD := by decide
      omega
    have hstep : (2 ^ i * 2) % WORD = 2 ^ (i + 1) := by
      rw [← pow_succ]
      exact Nat.mod_eq_of_lt hpow
    simp only [prv_align_loop, hlt, if_true, hstep]
    exact ih (i + 1) f (by omega) (by omega)

theorem prv_order_loop_pow (k : Nat) :
    ∀ fuel order, k ≤ fuel → order + k < WORD →
      prv_order_loop fuel (2 ^ k) order = order + k := by
  induction k with
  | zero =>
    intro fuel order _ _
    cases fuel with
    | zero => simp [prv_order_loop]
    | succ f => simp [prv_order_loop]
  | succ k ih =>
    intro fuel order hf ho
    obtain ⟨f, rfl⟩ : ∃ f, fuel = f + 1 := ⟨fuel - 1, by omega⟩
    have hhalf : 2 ^ (k + 1) / 2 = 2 ^ k := by
      rw [pow_succ]
      exact Nat.mul_div_cancel _ (by decide)
    have hpos : 2 ^ k ≠ 0 := by positivity
    have hmod : (order + 1) % WORD = order + 1 := Nat.mod_eq_of_lt (by omega)
    simp only [prv_order_loop, hhalf, hmod]
    rw [if_pos hpos, ih f (order + 1) (by omega) (by omega)]
    omega

theorem prv_calculate_max_order_pow (k : Nat) (hk : k < 32) :
    prv_calculate_max_order (2 ^ k) = k := by
  have hfuel : k ≤ 2 ^ k := Nat.le_of_lt (Nat.lt_two_pow k)
  have hw : 0 + k < WORD := by
    have : (32 : Nat) < WORD := by decide
    omega
  have := prv_order_loop_pow k (2 ^ k) 0 hfuel hw
  simpa [prv_calculate_max_order] using this

theorem prv_align_to_power_of_two_clog (n fuel : Nat) (h2 : n ≤ 2 ^ 31)
    (hf : Nat.clog 2 n < fuel) :
    prv_align_to_power_of_two fuel n = some (2 ^ Nat.clog 2 n) := by
  have hk : Nat.clog 2 n ≤ 31 := by
    have := Nat.clog_mono_right 2 h2
    rwa [Nat.clog_pow 2 31 (by decide)] at this
  have hle : n ≤ 2 ^ Nat.clog 2 n := Nat.le_pow_clog (by decide) n
  have hlow : ∀ j, j < Nat.clog 2 n → 2 ^ j < n := by
    intro j hj
    exact (Nat.pow_lt_iff_lt_clog (by decide)).mpr hj
  have := prv_align_loop_reaches n (Nat.clog 2 n) hle hk hlow (Nat.clog 2 n) 0 fuel
    (by omega) hf
  simpa [prv_align_to_power_of_two] using this

theorem clog_le_31 (n : Nat) (h : n ≤ 2 ^ 31) : Nat.clog 2 n ≤ 31 := by
  have := Nat.clog_mono_right 2 h
  rwa [Nat.clog_pow 2 31 (by decide)] at this

theorem IsRoundUpPow2.eq_clog {n p : Nat} (h : IsRoundUpPow2 n p) :
    p = 2 ^ Nat.clog 2 n := by
  obtain ⟨⟨k, rfl⟩, hle, hleast⟩ := h
  have h1 : Nat.clog 2 n ≤ k := (Nat.le_pow_iff_clog_le (by decide)).mp hle
  have h2 : 2 ^ k ≤ 2 ^ Nat.clog 2 n := hleast _ (Nat.le_pow_clog (by decide) n)
  have h3 : k ≤ Nat.clog 2 n := (Nat.pow_le_pow_iff_right (by decide)).mp h2
  have : k = Nat.clog 2 n := by omega
  rw [this]

theorem IsRoundUpPow2.of_bounds (n k : Nat) (h1 : n ≤ 2 ^ k)
    (h2 : k = 0 ∨ 2 ^ (k - 1) < n) : IsRoundUpPow2 n (2 ^ k) := by
  refine ⟨⟨k, rfl⟩, h1, ?_⟩
  intro j hj
  apply Nat.pow_le_pow_right (by decide)
  rcases h2 with h2 | h2
  · omega
  · by_contra hlt
    have hjk : j ≤ k - 1 := by omega
    have : 2 ^ j ≤ 2 ^ (k - 1) := Nat.pow_le_pow_right (by decide) hjk
    omega

theorem prv_align_loop_more_fuel (n : Nat) :
    ∀ fuel p r d, prv_align_loop n fuel p = some r →
      prv_align_loop n (fuel + d) p = some r := by
  intro fuel
  induction fuel with
  | zero => intro p r d h; simp [prv_align_loop] at h
  | succ f ih =>
    intro p r d h
    have e : f + 1 + d = (f + d) + 1 := by omega
    rw [e]
    simp only [prv_align_loop] at h ⊢
    by_cases hp : p < n
    · simp only [hp, if_true] at h ⊢
      exact ih _ _ d h
    · simp only [hp, if_false] at h ⊢
      exact h

/-- C10: for every `n` with `1 ≤ n ≤ 2^31` there is a `k`, the least natural number with
`2^k ≥ n`, such that `prv_align_to_power_of_two(n)` returns `2^k` (with any fuel above
`k`, and whatever it returns with less is that value too) and `prv_calculate_max_order`
of that result is `k`: the rounded size is the smallest power of two not below `n`, and
the order is its exact base-2 logarithm. -/
theorem align_and_order_exact (n : Nat) (_h1 : 1 ≤ n) (h2 : n ≤ 2 ^ 31) :
    ∃ k, n ≤ 2 ^ k ∧ (∀ j, n ≤ 2 ^ j → k ≤ j) ∧
      (∀ fuel, k < fuel → prv_align_to_power_of_two fuel n = some (2 ^ k)) ∧
      (∀ fuel p, prv_align_to_power_of_two fuel n = some p → p = 2 ^ k) ∧
      prv_calculate_max_order (2 ^ k) = k := by
  have hk : Nat.clog 2 n ≤ 31 := by
    have := Nat.clog_mono_right 2 h2
    rwa [Nat.clog_pow 2 31 (by decide)] at this
  refine ⟨Nat.clog 2 n, Nat.le_pow_clog (by decide) n, ?_, ?_, ?_, ?_⟩
  · intro j hj
    exact (Nat.le_pow_iff_clog_le (by decide)).mp hj
  · intro fuel hf
    exact prv_align_to_power_of_two_clog n fuel h2 hf
  · intro fuel p hp
    have hbig := prv_align_to_power_of_two_clog n (fuel + (Nat.clog 2 n + 1)) h2 (by omega)
    have hmore := prv_align_loop_more_fuel n fuel 1 p (Nat.clog 2 n + 1) hp
    simp only [prv_align_to_power_of_two] at hbig
    rw [hmore] at hbig
    exact Option.some.inj hbig
  · exact prv_calculate_max_order_pow _ (by omega)

/-- C10 at `n = 120`: the hypotheses hold there, the rounded size is `128 = 2^7` and its
order is `7`. -/
theorem align_and_order_exact_witness :
    (1 ≤ 120 ∧ 120 ≤ 2 ^ 31) ∧
    ∃ k, 120 ≤ 2 ^ k ∧ (∀ j, 120 ≤ 2 ^ j → k ≤ j) ∧
      (∀ fuel, k < fuel → prv_align_to_power_of_two fuel 120 = some (2 ^ k)) ∧
      (∀ fuel p, prv_align_to_power_of_two fuel 120 = some p → p = 2 ^ k) ∧
      prv_calculate_max_order (2 ^ k) = k :=
  ⟨by decide, align_and_order_exact 120 (by decide) (by decide)⟩

/-! ## Pool creation -/

theorem prv_align_loop_diverges (n : Nat) (hn : 2 ^ 31 < n) :
    ∀ fuel p, (p = 0 ∨ ∃ i, i ≤ 31 ∧ p = 2 ^ i) → prv_align_loop n fuel p = none := by
  intro fuel
  induction fuel with
  | zero => intro p _; rfl
  | succ f ih =>
    intro p hp
    have hlt : p < n := by
      rcases hp with rfl | ⟨i, hi, rfl⟩
      · omega
      · have : 2 ^ i ≤ 2 ^ 31 := Nat.pow_le_pow_right (by decide) hi
        omega
    simp only [prv_align_loop, hlt, if_true]
    apply ih
    rcases hp with rfl | ⟨i, hi, rfl⟩
    · left; rfl
    · by_cases h31 : i = 31
      · left; subst h31; decide
      · right
        refine ⟨i + 1, by omega, ?_⟩
        rw [← pow_succ]
        apply Nat.mod_eq_of_lt
        have h1 : 2 ^ (i + 1) ≤ 2 ^ 31 := Nat.pow_le_pow_right (by decide) (by omega)
        have h2 : (2 : Nat) ^ 31 < WORD := by decide
        omega

theorem prv_align_to_power_of_two_diverges (n fuel : Nat) (hn : 2 ^ 31 < n) :
    prv_align_to_power_of_two fuel n = none :=
  prv_align_loop_diverges n hn fuel 1 (Or.inr ⟨0, by omega, rfl⟩)

theorem k_mpool_create_of_align (cfg : Config) (fuel : Nat) (s : State)
    (start end_ : Nat) (r : Option Nat)
    (hstart : start = cfg.RAM1_START ∨ start = cfg.RAM2_START)
    (hmin : cfg.MIN_BLK_SIZE ≤ (end_ + WORD - start % WORD) % WORD)
    (ha : prv_align_to_power_of_two fuel ((end_ + WORD - start % WORD) % WORD) = r) :
    k_mpool_create cfg fuel s cfg.BUDDY start end_ =
      r.map (fun total =>
        (if start = cfg.RAM1_START then cfg.MPID_IRAM1 else cfg.MPID_IRAM2,
          create_init cfg s start total)) := by
  have hg1 : ¬ (start ≠ cfg.RAM1_START ∧ start ≠ cfg.RAM2_START) := by
    rcases hstart with h | h <;> simp [h]
  have hg2 : ¬ ((end_ + WORD - start % WORD) % WORD < cfg.MIN_BLK_SIZE) := by omega
  simp only [k_mpool_create, ne_eq, not_true_eq_false, if_false, hg1, hg2, ha]
  cases r <;> rfl

theorem k_mpool_create_rejects (cfg : Config) (fuel : Nat) (s : State) (algo : Int)
    (start end_ : Nat)
    (h : algo ≠ cfg.BUDDY ∨ (start ≠ cfg.RAM1_START ∧ start ≠ cfg.RAM2_START) ∨
      (end_ + WORD - start % WORD) % WORD < cfg.MIN_BLK_SIZE) :
    k_mpool_create cfg fuel s algo start end_ =
      some (cfg.RTX_ERR, { s with errno := cfg.EINVAL }) := by
  unfold k_mpool_create
  by_cases h1 : algo ≠ cfg.BUDDY
  · rw [if_pos h1]
  · rw [if_neg h1]
    by_cases h2 : start ≠ cfg.RAM1_START ∧ start ≠ cfg.RAM2_START
    · rw [if_pos h2]
    · rw [if_neg h2]
      have h3 : (end_ + WORD - start % WORD) % WORD < cfg.MIN_BLK_SIZE := by
        rcases h with h | h | h
        · exact absurd h h1
        · exact absurd h h2
        · exact h
      simp only [h3, if_true]

theorem create_init_heads (cfg : Config) (s : State) (start K : Nat) (hK : K ≤ 31)
    (hmax : K ≤ MAX_ORDER cfg) :
    (∀ i, i ≤ MAX_ORDER cfg → i ≠ K →
      (create_init cfg s start (2 ^ K)).free_list i = 0) ∧
    (create_init cfg s start (2 ^ K)).free_list K = start := by
  have hord : prv_calculate_max_order (2 ^ K) = K :=
    prv_calculate_max_order_pow K (by omega)
  constructor
  · intro i hi hne
    simp only [create_init, setHead, hord, if_pos hmax, if_neg hne, clear_heads_apply]
    rw [if_pos (by omega)]
  · simp [create_init, setHead, hord, hmax]

theorem create_init_header (cfg : Config) (s : State) (start K : Nat) (hK : K ≤ 31) :
    hdr_size (create_init cfg s start (2 ^ K)).mem start = 2 ^ K ∧
    hdr_order (create_init cfg s start (2 ^ K)).mem start = K ∧
    hdr_is_free (create_init cfg s start (2 ^ K)).mem start = 1 ∧
    hdr_prev (create_init cfg s start (2 ^ K)).mem start = 0 ∧
    hdr_next (create_init cfg s start (2 ^ K)).mem start = 0 := by
  have hord : prv_calculate_max_order (2 ^ K) = K :=
    prv_calculate_max_order_pow K (by omega)
  have hpK : 2 ^ K % 4294967296 = 2 ^ K := by
    apply Nat.mod_eq_of_lt
    have h1 : 2 ^ K ≤ 2 ^ 31 := Nat.pow_le_pow_right (by decide) hK
    have h2 : (2 : Nat) ^ 31 < 4294967296 := by decide
    omega
  have hKw : K % 4294967296 = K := Nat.mod_eq_of_lt (by omega)
  simp only [create_init, hdr_size, hdr_order, hdr_is_free, hdr_prev, hdr_next, hord,
    OFF_SIZE, OFF_IS_FREE, OFF_ORDER, OFF_PREV, OFF_NEXT, HEADER_SIZE]
  refine ⟨?_, ?_, ?_, ?_, ?_⟩ <;>
    simp (disch := omega) only [load_store_same, load_store_other] <;>
    first | rfl | assumption

/-- C6 on the code: `k_mpool_create(BUDDY, 0x1000, 0x80001001)` passes all three argument
checks (the algorithm is `BUDDY`, the start is `RAM1_START`, the size `2^31 + 1` is not
below `MIN_BLK_SIZE`), and then never returns, whatever the fuel: the rounding loop
shifts its power of two out of the 32-bit word and goes on comparing `0 < val`. -/
theorem create_over_half_range_never_returns :
    (4096 = demoCfg.RAM1_START ∧
      demoCfg.MIN_BLK_SIZE ≤ (2147487745 + WORD - 4096 % WORD) % WORD) ∧
    ∀ fuel, k_mpool_create demoCfg fuel zeroState demoCfg.BUDDY 4096 2147487745 = none := by
  refine ⟨by decide, ?_⟩
  intro fuel
  have hd := prv_align_to_power_of_two_diverges 2147483649 fuel (by decide)
  have ht : (2147487745 + WORD - 4096 % WORD) % WORD = 2147483649 := by decide
  rw [← ht] at hd
  rw [k_mpool_create_of_align demoCfg fuel zeroState 4096 2147487745 none
    (Or.inl rfl) (by decide) hd]
  rfl

theorem IsChain.single {m : Nat → Nat} {h : Nat} (h0 : h ≠ 0) (hn : hdr_next m h = 0) :
    IsChain m h [h] :=
  ⟨h0, rfl, hn⟩

theorem create_init_oob (cfg : Config) (s : State) (start K : Nat) (hK : K ≤ 31)
    (hmax : K ≤ MAX_ORDER cfg) :
    (create_init cfg s start (2 ^ K)).oob = s.oob := by
  have hord : prv_calculate_max_order (2 ^ K) = K :=
    prv_calculate_max_order_pow K (by omega)
  have hno : ¬ MAX_ORDER cfg < K := by omega
  simp [create_init, outside, hord, hno]

/-- C7 as stated fails: `k_mpool_create(BUDDY, 0x1000, 0x3000)` is a successful call for a
region of 8192 bytes, which is below `2^31`; its rounded size has order 13, and
`free_list` has the slots `0..12`.  The call returns `MPID_IRAM1`, leaves every head of
the array empty, and its store `free_list[13].head = first_header` is outside the array:
no list holds the block. -/
theorem create_beyond_max_order_registers_nothing :
    MAX_ORDER demoCfg = 12 ∧ prv_calculate_max_order 8192 = 13 ∧
    (k_mpool_create demoCfg 40 zeroState demoCfg.BUDDY 4096 12288).map
      (fun r => (r.1, r.2.oob, (List.range 13).map r.2.free_list,
        [hdr_size r.2.mem 4096, hdr_order r.2.mem 4096])) =
      some (demoCfg.MPID_IRAM1, true, [0, 0, 0, 0, 0, 0, 0, 0, 0, 0, 0, 0, 0],
        [8192, 13]) := by
  refine ⟨by decide, by decide, ?_⟩
  rw [k_mpool_create_of_align demoCfg 40 zeroState 4096 12288 (some 8192) (Or.inl rfl)
    (by decide) (by decide)]
  decide

/-- C7, amended: a call `k_mpool_create(BUDDY, start, end)` that passes the argument
checks, with `end - start ≤ 2^31` and `end - start ≤ 2^MAX_ORDER`, returns the pool id of
its region without indexing `free_list` outside the array.  With
`2^K = round_up_pow2(end - start)`, the order `K` is at most `MAX_ORDER`, every head
`0..MAX_ORDER` other than `K` is empty, head `K` points to the header at `start`, and that
header has size `2^K`, order `K`, `is_free` true and `prev = next = NULL`, so that list
`K` is the chain of this one node. -/
theorem create_registers_single_block (cfg : Config) (fuel : Nat) (s : State)
    (start end_ K : Nat)
    (hstart : start = cfg.RAM1_START ∨ start = cfg.RAM2_START)
    (hmin : cfg.MIN_BLK_SIZE ≤ (end_ + WORD - start % WORD) % WORD)
    (h31 : (end_ + WORD - start % WORD) % WORD ≤ 2 ^ 31)
    (hmax : (end_ + WORD - start % WORD) % WORD ≤ 2 ^ MAX_ORDER cfg)
    (hK : IsRoundUpPow2 ((end_ + WORD - start % WORD) % WORD) (2 ^ K))
    (hfuel : 32 ≤ fuel) :
    ∃ s', k_mpool_create cfg fuel s cfg.BUDDY start end_ =
        some (if start = cfg.RAM1_START then cfg.MPID_IRAM1 else cfg.MPID_IRAM2, s') ∧
      s'.oob = s.oob ∧
      K ≤ MAX_ORDER cfg ∧
      (∀ i, i ≤ MAX_ORDER cfg → i ≠ K → s'.free_list i = 0) ∧
      s'.free_list K = start ∧
      hdr_size s'.mem start = 2 ^ K ∧
      hdr_order s'.mem start = K ∧
      hdr_is_free s'.mem start = 1 ∧
      hdr_prev s'.mem start = 0 ∧
      hdr_next s'.mem start = 0 ∧
      (start ≠ 0 → IsChain s'.mem (s'.free_list K) [start]) := by
  have hc := clog_le_31 _ h31
  have ha := prv_align_to_power_of_two_clog _ fuel h31 (by omega)
  have hKc : K = Nat.clog 2 ((end_ + WORD - start % WORD) % WORD) :=
    (Nat.pow_right_injective (le_refl 2)) (IsRoundUpPow2.eq_clog hK)
  rw [← hKc] at ha hc
  have hKmax : K ≤ MAX_ORDER cfg :=
    (Nat.pow_le_pow_iff_right (by decide)).mp (hK.2.2 _ hmax)
  have hh := create_init_header cfg s start K hc
  have hl := create_init_heads cfg s start K hc hKmax
  refine ⟨create_init cfg s start (2 ^ K), ?_, create_init_oob cfg s start K hc hKmax,
    hKmax, hl.1, hl.2, hh.1, hh.2.1, hh.2.2.1, hh.2.2.2.1, hh.2.2.2.2, ?_⟩
  · rw [k_mpool_create_of_align cfg fuel s start end_ _ hstart hmin ha]
    rfl
  · intro h0
    rw [hl.2]
    exact IsChain.single h0 hh.2.2.2.2

/-- C7 on the 4096-byte region `[0x1000, 0x2000)`: one free block of order 12 at the
region's start. -/
theorem create_registers_single_block_witness :
    ∃ s', k_mpool_create demoCfg 40 zeroState demoCfg.BUDDY 4096 8192 =
        some (if 4096 = demoCfg.RAM1_START then demoCfg.MPID_IRAM1 else demoCfg.MPID_IRAM2,
          s') ∧
      s'.oob = zeroState.oob ∧
      12 ≤ MAX_ORDER demoCfg ∧
      (∀ i, i ≤ MAX_ORDER demoCfg → i ≠ 12 → s'.free_list i = 0) ∧
      s'.free_list 12 = 4096 ∧
      hdr_size s'.mem 4096 = 2 ^ 12 ∧
      hdr_order s'.mem 4096 = 12 ∧
      hdr_is_free s'.mem 4096 = 1 ∧
      hdr_prev s'.mem 4096 = 0 ∧
      hdr_next s'.mem 4096 = 0 ∧
      (4096 ≠ 0 → IsChain s'.mem (s'.free_list 12) [4096]) :=
  create_registers_single_block demoCfg 40 zeroState 4096 8192 12 (Or.inl rfl)
    (by decide) (by decide) (by decide)
    (IsRoundUpPow2.of_bounds 4096 12 (by decide) (by decide)) (by decide)

/-! ## The registry is shared by the two pools -/

/-- C8 on the code: on `demoCfg`, creating the RAM1 pool registers its block at `0x1000`
in list 12; creating the RAM2 pool afterwards, which is what `k_mem_init` does, overwrites
that entry, and after `k_mem_init(BUDDY)` has returned `RTX_OK` no free-list head points
to the RAM1 block any more: of the two pools it created, only the second is registered. -/
theorem create_second_pool_unregisters_first :
    ∃ s1 s2,
      k_mpool_create demoCfg 40 zeroState demoCfg.BUDDY demoCfg.RAM1_START demoCfg.RAM1_END
        = some (demoCfg.MPID_IRAM1, s1) ∧
      s1.free_list 12 = demoCfg.RAM1_START ∧
      k_mpool_create demoCfg 40 s1 demoCfg.BUDDY demoCfg.RAM2_START demoCfg.RAM2_END
        = some (demoCfg.MPID_IRAM2, s2) ∧
      s2.free_list 12 ≠ s1.free_list 12 ∧
      k_mem_init demoCfg 40 zeroState demoCfg.BUDDY = some (demoCfg.RTX_OK, s2) ∧
      ∀ i, s2.free_list i ≠ demoCfg.RAM1_START := by
  have e1 : k_mpool_create demoCfg 40 zeroState demoCfg.BUDDY demoCfg.RAM1_START
      demoCfg.RAM1_END = some (demoCfg.MPID_IRAM1, create_init demoCfg zeroState 4096 4096) := by
    rw [k_mpool_create_of_align demoCfg 40 zeroState _ _ (some 4096) (Or.inl rfl)
      (by decide) (by decide)]
    rfl
  have e2 : k_mpool_create demoCfg 40 (create_init demoCfg zeroState 4096 4096) demoCfg.BUDDY
      demoCfg.RAM2_START demoCfg.RAM2_END = some (demoCfg.MPID_IRAM2,
        create_init demoCfg (create_init demoCfg zeroState 4096 4096) 16384 4096) := by
    rw [k_mpool_create_of_align demoCfg 40 _ _ _ (some 4096) (Or.inr rfl)
      (by decide) (by decide)]
    rfl
  refine ⟨_, _, e1, by decide, e2, by decide, ?_, ?_⟩
  · simp only [k_mem_init, e1, e2]
    rfl
  · intro i
    have h : (∀ i, i ≤ MAX_ORDER demoCfg → i ≠ 12 →
        (create_init demoCfg (create_init demoCfg zeroState 4096 4096) 16384 4096).free_list i
          = 0) ∧
        (create_init demoCfg (create_init demoCfg zeroState 4096 4096) 16384 4096).free_list 12
          = 16384 :=
      create_init_heads demoCfg (create_init demoCfg zeroState 4096 4096) 16384 12 (by decide)
        (by decide)
    by_cases hi : i = 12
    · subst hi
      rw [h.2]
      decide
    · by_cases hle : i ≤ 12
      · rw [h.1 i hle hi]
        decide
      · have hgt : ¬ i < 12 + 1 := by omega
        have hord : prv_calculate_max_order 4096 = 12 := by decide
        simp only [create_init, setHead, hord, if_neg hi, clear_heads_apply, MAX_ORDER,
          demoCfg, if_neg hgt, zeroState, le_refl, if_true]
        decide

/-! ## Allocation -/

theorem find_loop_null (cfg : Config) (fl : Nat → Nat) :
    ∀ n i, find_loop cfg fl n i = 0 := by
  intro n
  induction n with
  | zero => intro i; rfl
  | succ n ih =>
    intro i
    simp only [find_loop]
    split
    · split
      · assumption
      · exact ih (i + 1)
    · rfl

theorem find_smallest_free_block_null (cfg : Config) (s : State) (actual_size : Nat) :
    find_smallest_free_block cfg s actual_size = 0 :=
  find_loop_null cfg s.free_list _ _

theorem k_mpool_alloc_of_align (cfg : Config) (fuel : Nat) (s : State) (mpid : Int)
    (size actual : Nat) (hs : size ≠ 0)
    (ha : prv_align_to_power_of_two fuel ((size + HEADER_SIZE) % WORD) = some actual) :
    k_mpool_alloc cfg fuel s mpid size =
      if actual > cfg.IRAM1_SIZE then some (0, { s with errno := cfg.ENOMEM })
      else some (0, s) := by
  simp only [k_mpool_alloc, hs, if_false, ha, find_smallest_free_block_null, if_true]

/-- C4 on the code: on `smallPoolCfg` the second pool is the region `[0x4000, 0x4400)` of
1024 bytes, and `k_mpool_create` registers it as one block of size 1024, the largest
block this pool can ever hold.  The request `k_mpool_alloc(MPID_IRAM2, 2000)` needs
`round_up_pow2(2020) = 2048` bytes, more than that; it returns `NULL`, yet `errno` is
still `0` and not `ENOMEM`: the size test compares with `IRAM1_SIZE = 4096`, and the
return of the search that found nothing sets no error code. -/
theorem alloc_small_pool_sets_no_errno :
    ∃ s1, k_mpool_create smallPoolCfg 40 zeroState smallPoolCfg.BUDDY 16384 17408 =
        some (smallPoolCfg.MPID_IRAM2, s1) ∧
      s1.free_list 10 = 16384 ∧ hdr_size s1.mem 16384 = 1024 ∧
      prv_align_to_power_of_two 40 ((2000 + HEADER_SIZE) % WORD) = some 2048 ∧
      smallPoolCfg.IRAM1_SIZE = 4096 ∧
      k_mpool_alloc smallPoolCfg 40 s1 smallPoolCfg.MPID_IRAM2 2000 = some (0, s1) ∧
      s1.errno = 0 ∧ smallPoolCfg.ENOMEM = 12 := by
  refine ⟨create_init smallPoolCfg zeroState 16384 1024, ?_, by decide, by decide,
    by decide, by decide, ?_, by decide, by decide⟩
  · rw [k_mpool_create_of_align smallPoolCfg 40 zeroState 16384 17408 (some 1024)
      (Or.inr rfl) (by decide) (by decide)]
    rfl
  · rw [k_mpool_alloc_of_align smallPoolCfg 40 _ _ 2000 2048 (by decide) (by decide)]
    rfl

/-- C1 on the code: `k_mpool_create(BUDDY, 0x1000, 0x2000)` leaves one free block of size
4096 and order 12 at `0x1000` on list 12; on that fresh pool `k_mpool_alloc(pool, 100)`
needs `128` bytes, which fit, yet it returns `NULL` and leaves the state as it was: the
order-12 block is not split and no block is handed out. -/
theorem alloc_fresh_pool_returns_null :
    ∃ s1, k_mpool_create demoCfg 40 zeroState demoCfg.BUDDY 4096 8192 =
        some (demoCfg.MPID_IRAM1, s1) ∧
      s1.free_list 12 = 4096 ∧ hdr_size s1.mem 4096 = 4096 ∧ hdr_is_free s1.mem 4096 = 1 ∧
      prv_align_to_power_of_two 40 ((100 + HEADER_SIZE) % WORD) = some 128 ∧
      k_mpool_alloc demoCfg 40 s1 demoCfg.MPID_IRAM1 100 = some (0, s1) := by
  refine ⟨create_init demoCfg zeroState 4096 4096, ?_, by decide, by decide, by decide,
    by decide, ?_⟩
  · rw [k_mpool_create_of_align demoCfg 40 zeroState 4096 8192 (some 4096) (Or.inl rfl)
      (by decide) (by decide)]
    rfl
  · rw [k_mpool_alloc_of_align demoCfg 40 _ _ 100 128 (by decide) (by decide)]
    rfl

/-- C5 on the code: with every free list empty, a request of 100 bytes (needing `128`,
which fits the pool) returns `NULL` and leaves `errno` as it was, the same outcome as the
request of size `0`. -/
theorem alloc_no_block_sets_no_errno :
    (∀ i, zeroState.free_list i = 0) ∧
    prv_align_to_power_of_two 40 ((100 + HEADER_SIZE) % WORD) = some 128 ∧
    128 ≤ demoCfg.IRAM1_SIZE ∧
    k_mpool_alloc demoCfg 40 zeroState demoCfg.MPID_IRAM1 100 = some (0, zeroState) ∧
    k_mpool_alloc demoCfg 40 zeroState demoCfg.MPID_IRAM1 0 = some (0, zeroState) ∧
    zeroState.errno ≠ demoCfg.ENOMEM := by
  refine ⟨fun _ => rfl, by decide, by decide, ?_, rfl, by decide⟩
  rw [k_mpool_alloc_of_align demoCfg 40 zeroState _ 100 128 (by decide) (by decide)]
  rfl

/-! ## Deallocation: the range check -/

/-- C9 on the code: for `MPID_IRAM2` the range check looks at the address of the
parameter, not at the pointer.  On `demoCfg` (RAM2 is `[0x4000, 0x5000)`) the pointer
`0x4014`, inside the pool, is refused with `EFAULT` when the parameter lives at address
`100`, and the pointer `100`, outside the pool, is accepted when the parameter lives at
`0x4074`: the call returns `RTX_OK` and has written the header at address `80`. -/
theorem dealloc_second_pool_checks_parameter_address :
    k_mpool_dealloc demoCfg 5 zeroState demoCfg.MPID_IRAM2 16404 100 =
      some (demoCfg.RTX_ERR, { zeroState with errno := demoCfg.EFAULT }) ∧
    (k_mpool_dealloc demoCfg 5 zeroState demoCfg.MPID_IRAM2 100 16500).map
      (fun r => (r.1, r.2.errno, r.2.free_list 0, hdr_is_free r.2.mem 80)) =
      some (demoCfg.RTX_OK, 0, 80, 1) := by
  constructor
  · rfl
  · decide

/-! ## Deallocation twice -/

theorem load_store_aligned (m : Nat → Nat) (x h i j v : Nat)
    (hx : 32 ∣ x) (hxw : x < WORD) (hh : 32 ∣ h) (hhw : h < WORD)
    (hi : i < 32) (hj : j < 32) :
    load (store m (x + i) v) (h + j) =
      if x = h ∧ i = j then v % WORD else load m (h + j) := by
  by_cases hc : x = h ∧ i = j
  · rw [if_pos hc, hc.1, hc.2]
    exact load_store_same m _ _ v rfl
  · rw [if_neg hc]
    apply load_store_other
    unfold WORD at *
    omega

theorem store_keeps_is_free (m : Nat → Nat) (x h off v : Nat)
    (hx : 32 ∣ x) (hxw : x < WORD) (hh : 32 ∣ h) (hhw : h < WORD)
    (hoff : off < 32) (h4 : off ≠ 4) :
    hdr_is_free (store m (x + off) v) h = hdr_is_free m h := by
  simp only [hdr_is_free, OFF_IS_FREE]
  rw [load_store_aligned m x h off 4 v hx hxw hh hhw hoff (by decide), if_neg (by omega)]

theorem AlignedFree.store {m : Nat → Nat} (hm : AlignedFree m) (x off v : Nat)
    (hx : 32 ∣ x) (hxw : x < WORD) (hoff : off = 0 ∨ off = 8 ∨ off = 12 ∨ off = 16)
    (hv : off = 8 ∨ 32 ∣ v % WORD) : AlignedFree (store m (x + off) v) := by
  intro h hh hhw hf
  have hoff32 : off < 32 := by omega
  rw [store_keeps_is_free m x h off v hx hxw hh hhw hoff32 (by omega)] at hf
  obtain ⟨h1, h2, h3⟩ := hm h hh hhw hf
  simp only [hdr_size, hdr_prev, hdr_next, OFF_SIZE, OFF_PREV, OFF_NEXT] at h1 h2 h3 ⊢
  rw [load_store_aligned m x h off 0 v hx hxw hh hhw hoff32 (by decide),
    load_store_aligned m x h off 12 v hx hxw hh hhw hoff32 (by decide),
    load_store_aligned m x h off 16 v hx hxw hh hhw hoff32 (by decide)]
  have hv2 : off ≠ 8 → 32 ∣ v % WORD := fun h8 => hv.resolve_left h8
  refine ⟨?_, ?_, ?_⟩
  · split
    · exact hv2 (by omega)
    · exact h1
  · split
    · exact hv2 (by omega)
    · exact h2
  · split
    · exact hv2 (by omega)
    · exact h3

/-- C2 on the code: in `splitNeighbourState` the blocks at `0x1000` (in use) and `0x1040`
(free, on list 6) are buddies of order 6, and the order-7 buddy of their union, the
region at `0x1080`, is not free: it is split, and the header at `0x1080` is that of a free
block of order 5.  After `k_mpool_dealloc(MPID_IRAM1, 0x1014)` list 7 is empty: the union
was merged once more, with the order-5 block, and the block at `0x1000` has size 256 and
order 8 and heads list 8.  The header at `0x1080` records order 7 and is still the head
of list 5. -/
theorem dealloc_merges_union_with_split_buddy :
    (SizeIsPow2Order splitNeighbourState.mem neighbourBlocks ∧
      hdr_is_free splitNeighbourState.mem 4096 = 0 ∧
      hdr_order splitNeighbourState.mem 4096 = 6 ∧
      4096 ^^^ hdr_size splitNeighbourState.mem 4096 = 4160 ∧
      hdr_is_free splitNeighbourState.mem 4160 = 1 ∧
      hdr_order splitNeighbourState.mem 4160 = 6 ∧
      IsChain splitNeighbourState.mem (splitNeighbourState.free_list 6) [4160] ∧
      4096 ^^^ 128 = 4224 ∧ hdr_order splitNeighbourState.mem 4224 = 5 ∧
      hdr_size splitNeighbourState.mem 4224 = 32) ∧
    (k_mpool_dealloc demoCfg 5 splitNeighbourState demoCfg.MPID_IRAM1 4116 0).map
      (fun r => (r.1, r.2.oob, [r.2.free_list 6, r.2.free_list 7, r.2.free_list 8,
        hdr_size r.2.mem 4096, hdr_order r.2.mem 4096, hdr_is_free r.2.mem 4096,
        hdr_order r.2.mem 4224, r.2.free_list 5])) =
      some (demoCfg.RTX_OK, false, [0, 0, 4096, 256, 8, 1, 7, 4224]) := by
  refine ⟨by decide, by decide⟩

/-! ## The search for a free block -/

/-- C13 on the code: on the pool left by `k_mpool_create(BUDDY, 0x1000, 0x2000)` the lists
of order 7 to 11 are empty and list 12 holds the free block of 4096 bytes at `0x1000`, so
the smallest non-empty list of order at least `order_of(128) = 7` is list 12; yet
`find_smallest_free_block(128)` returns `NULL`.  On `tailBuddyState`, whose list 5 holds
two free blocks of 32 bytes, `find_smallest_free_block(32)` returns `NULL` as well. -/
theorem find_returns_null_despite_free_block :
    (create_init demoCfg zeroState 4096 4096).free_list 12 = 4096 ∧
    hdr_size (create_init demoCfg zeroState 4096 4096).mem 4096 = 4096 ∧
    hdr_is_free (create_init demoCfg zeroState 4096 4096).mem 4096 = 1 ∧
    prv_calculate_max_order 128 = 7 ∧ MAX_ORDER demoCfg = 12 ∧
    find_smallest_free_block demoCfg (create_init demoCfg zeroState 4096 4096) 128 = 0 ∧
    tailBuddyState.free_list (prv_calculate_max_order 32) = 4224 ∧
    find_smallest_free_block demoCfg tailBuddyState 32 = 0 := by
  refine ⟨by decide, by decide, by decide, by decide, by decide, by decide, by decide,
    by decide⟩

/-! ## Coalescing: the order test, the unlinking, the bounds -/

/-- C14 on the code: in `splitBuddyState` the block at `0x1000` has order 6 and the header
at its buddy address `0x1000 ^ 64 = 0x1040` is free with order 5.  The call
`k_mpool_dealloc(MPID_IRAM1, 0x1014)` nevertheless merges: afterwards the header at
`0x1040` records order 6 (it is still the head of list 5, still marked free), the block
at `0x1000` has size 128 and order 7 and heads list 7, and list 6 is empty. -/
theorem dealloc_merges_buddy_of_other_order :
    (hdr_order splitBuddyState.mem 4096 = 6 ∧ 4096 ^^^ hdr_size splitBuddyState.mem 4096 = 4160 ∧
      hdr_is_free splitBuddyState.mem 4160 = 1 ∧ hdr_order splitBuddyState.mem 4160 = 5 ∧
      hdr_size splitBuddyState.mem 4160 = 32) ∧
    (k_mpool_dealloc demoCfg 5 splitBuddyState demoCfg.MPID_IRAM1 4116 0).map
      (fun r => (r.1, [hdr_order r.2.mem 4160, hdr_is_free r.2.mem 4160, r.2.free_list 5,
        hdr_size r.2.mem 4096, hdr_order r.2.mem 4096, r.2.free_list 7, r.2.free_list 6])) =
      some (demoCfg.RTX_OK, [6, 1, 4160, 128, 7, 4096, 0]) := by
  refine ⟨by decide, by decide⟩

/-- C15 on the code: in `tailBuddyState` list 5 is the chain `0x1080, 0x1020` with
matching `prev` links, and the free buddy `0x1020` of the block at `0x1000` is its last
node, not its head.  After `k_mpool_dealloc(MPID_IRAM1, 0x1014)` the head of list 5 is
`NULL`, although the block at `0x1080` is still marked free and was not merged: the list
lost a node that is not the buddy. -/
theorem dealloc_unlinking_tail_buddy_empties_list :
    (IsChain tailBuddyState.mem (tailBuddyState.free_list 5) [4224, 4128] ∧
      hdr_prev tailBuddyState.mem 4224 = 0 ∧ hdr_prev tailBuddyState.mem 4128 = 4224 ∧
      4096 ^^^ hdr_size tailBuddyState.mem 4096 = 4128) ∧
    (k_mpool_dealloc demoCfg 5 tailBuddyState demoCfg.MPID_IRAM1 4116 0).map
      (fun r => (r.1, [r.2.free_list 5, hdr_is_free r.2.mem 4224, hdr_size r.2.mem 4224,
        hdr_order r.2.mem 4224, r.2.free_list 6, hdr_size r.2.mem 4096])) =
      some (demoCfg.RTX_OK, [0, 1, 32, 5, 4096, 64]) := by
  refine ⟨by decide, by decide⟩

/-- C16 on the code: in `usedBuddyState` every block header of the pool satisfies
`size == 1 << order`, and the block at `0x1000` (order 6) is in use.  After
`k_mpool_dealloc(MPID_IRAM1, 0x1014)` the header at `0x1040`, a block of 32 bytes in use
that was neither freed nor merged, records order 6 with size 32: the invariant is lost. -/
theorem dealloc_breaks_size_order_invariant :
    (SizeIsPow2Order usedBuddyState.mem splitBlocks ∧
      hdr_is_free usedBuddyState.mem 4096 = 0 ∧ hdr_is_free usedBuddyState.mem 4160 = 0) ∧
    (k_mpool_dealloc demoCfg 5 usedBuddyState demoCfg.MPID_IRAM1 4116 0).map
      (fun r => (r.1, [hdr_size r.2.mem 4160, hdr_order r.2.mem 4160,
        hdr_is_free r.2.mem 4160, hdr_size r.2.mem 4096, hdr_order r.2.mem 4096],
        decide (SizeIsPow2Order r.2.mem splitBlocks))) =
      some (demoCfg.RTX_OK, [32, 6, 0, 64, 6], false) := by
  refine ⟨by decide, by decide⟩

/-- C17 on the code: the pool of `highCfg` is `[0x3000, 0x4000)` with `MAX_ORDER = 12`, and
in `lastBlockState` its upper half is free and its lower half, of order 11, is the last
block in use.  Freeing it with every word outside the pool zero coalesces the pool to
order 12 and then stores that order in the word at `0x2008`, the order field of a buddy
header at `0x3000 ^ 4096 = 0x2000`, outside the pool.  With the words `4096` and `1` at
`0x2000` and `0x2004` the same call merges with that header too: it takes two merge
steps (fuel 2 does not suffice, fuel 3 does), one more than `MAX_ORDER - 11`, and inserts
a block at `0x2000` of size 8192 and order 13 at index 13 of the free-list array. -/
theorem dealloc_coalesces_past_pool_and_max_order :
    (highCfg.RAM1_START = 12288 ∧ highCfg.RAM1_END = 16384 ∧ MAX_ORDER highCfg = 12 ∧
      dealloc_in_range highCfg highCfg.MPID_IRAM1 12308 0 = true ∧
      hdr_order (lastBlockState 0 0).mem 12288 = 11 ∧
      hdr_is_free (lastBlockState 0 0).mem 12288 = 0 ∧
      IsChain (lastBlockState 0 0).mem ((lastBlockState 0 0).free_list 11) [14336]) ∧
    (k_mpool_dealloc highCfg 5 (lastBlockState 0 0) highCfg.MPID_IRAM1 12308 0).map
      (fun r => (r.1, [r.2.free_list 12, hdr_size r.2.mem 12288, hdr_order r.2.mem 12288,
        load (lastBlockState 0 0).mem 8200, load r.2.mem 8200])) =
      some (highCfg.RTX_OK, [12288, 4096, 12, 0, 12]) ∧
    (k_mpool_dealloc highCfg 2 (lastBlockState 4096 1) highCfg.MPID_IRAM1 12308 0).map
      (fun r => r.1) = none ∧
    (k_mpool_dealloc highCfg 3 (lastBlockState 4096 1) highCfg.MPID_IRAM1 12308 0).map
      (fun r => (r.1, [r.2.free_list 12, r.2.free_list 13, hdr_size r.2.mem 8192,
        hdr_order r.2.mem 8192, load r.2.mem 8])) =
      some (highCfg.RTX_OK, [0, 8192, 8192, 13, 13]) := by
  refine ⟨by decide, by decide, by decide, by decide⟩

/-! ## Termination of the rounding loop -/

/-- C19 on the code: for `n = 2^31 + 1` the function `prv_align_to_power_of_two` returns
within no amount of fuel, and so neither does `k_mpool_alloc(MPID_IRAM1, 0x80000000)`,
whose `size + HEADER_SIZE` is `2^31 + 20`.  A request whose `size + HEADER_SIZE` wraps
around `2^32`, such as `0xFFFFFFFF`, does return. -/
theorem align_above_half_range_never_returns :
    (∀ fuel, prv_align_to_power_of_two fuel 2147483649 = none) ∧
    (∀ fuel, k_mpool_alloc demoCfg fuel zeroState demoCfg.MPID_IRAM1 2147483648 = none) ∧
    (k_mpool_alloc demoCfg 8 zeroState demoCfg.MPID_IRAM1 4294967295).map
      (fun r => r.1) = some 0 := by
  refine ⟨fun fuel => prv_align_to_power_of_two_diverges 2147483649 fuel (by decide),
    fun fuel => ?_, by decide⟩
  have hd := prv_align_to_power_of_two_diverges 2147483668 fuel (by decide)
  have ht : (2147483648 + HEADER_SIZE) % WORD = 2147483668 := by decide
  rw [← ht] at hd
  simp only [k_mpool_alloc, hd]
  rfl

/-! ## Allocation as written -/

/-- C20: for every pool id, every state and every request size `s` whose
`s + HEADER_SIZE`, in 32-bit arithmetic, is at most `2^31`, `find_smallest_free_block`
returns `NULL` for every needed size, and `k_mpool_alloc` returns `NULL` and leaves the
memory (every block header and link) and every free-list head as they were.  Fuel 32
suffices for the rounding loop. -/
theorem alloc_never_hands_out_memory (cfg : Config) (fuel : Nat) (s : State) (mpid : Int)
    (size : Nat) (h31 : (size + HEADER_SIZE) % WORD ≤ 2 ^ 31) (hfuel : 32 ≤ fuel) :
    (∀ actual_size, find_smallest_free_block cfg s actual_size = 0) ∧
    ∃ s1, k_mpool_alloc cfg fuel s mpid size = some (0, s1) ∧
      s1.mem = s.mem ∧ s1.free_list = s.free_list := by
  refine ⟨fun a => find_smallest_free_block_null cfg s a, ?_⟩
  by_cases hs : size = 0
  · exact ⟨s, by simp [k_mpool_alloc, hs], rfl, rfl⟩
  · have hc := clog_le_31 _ h31
    have ha := prv_align_to_power_of_two_clog ((size + HEADER_SIZE) % WORD) fuel h31
      (by omega)
    rw [k_mpool_alloc_of_align cfg fuel s mpid size _ hs ha]
    by_cases hbig : 2 ^ Nat.clog 2 ((size + HEADER_SIZE) % WORD) > cfg.IRAM1_SIZE
    · rw [if_pos hbig]
      exact ⟨_, rfl, rfl, rfl⟩
    · rw [if_neg hbig]
      exact ⟨_, rfl, rfl, rfl⟩

theorem alloc_never_hands_out_memory_witness :
    (∀ actual_size, find_smallest_free_block demoCfg tailBuddyState actual_size = 0) ∧
    ∃ s1, k_mpool_alloc demoCfg 32 tailBuddyState demoCfg.MPID_IRAM1 12 = some (0, s1) ∧
      s1.mem = tailBuddyState.mem ∧ s1.free_list = tailBuddyState.free_list :=
  alloc_never_hands_out_memory demoCfg 32 tailBuddyState demoCfg.MPID_IRAM1 12
    (by decide) (by decide)

/-! ## Pool creation over a region that is not a power of two -/

/-- C18 as stated fails: `k_mpool_create(BUDDY, 0x1000, 0x1BB8)` is accepted for a region
of 3000 bytes and registers, on list 12, a block of size 4096 whose extent ends at
`0x2000`, beyond the end `0x1BB8` of the region. -/
theorem create_block_exceeds_region :
    (k_mpool_create demoCfg 40 zeroState demoCfg.BUDDY 4096 7096).map
      (fun r => (r.1, r.2.oob, [r.2.free_list 12, hdr_size r.2.mem 4096,
        hdr_order r.2.mem 4096, 4096 + hdr_size r.2.mem 4096])) =
      some (demoCfg.MPID_IRAM1, false, [4096, 4096, 12, 8192]) ∧
    7096 < 8192 := by
  refine ⟨?_, by decide⟩
  rw [k_mpool_create_of_align demoCfg 40 zeroState 4096 7096 (some 4096) (Or.inl rfl)
    (by decide) (by decide)]
  decide

/-- C18, amended: for every accepted region `[start, end)` that does not wrap and whose
size is at most `2^31` and at most `2^MAX_ORDER`, `k_mpool_create(BUDDY, start, end)`
returns the pool id without indexing `free_list` outside the array, and registers at
`start` a free block of size `2^K` on list `K`, where `2^K` is
`round_up_pow2(end - start)` and `K ≤ MAX_ORDER`.  The extent `[start, start + 2^K)`
contains `[start, end)` and is less than twice as long; it is exactly `[start, end)` if
and only if `end - start` is a power of two. -/
theorem create_block_covers_region (cfg : Config) (fuel : Nat) (s : State)
    (start end_ K : Nat)
    (hstart : start = cfg.RAM1_START ∨ start = cfg.RAM2_START)
    (hle : start ≤ end_) (hend : end_ < WORD)
    (hmin : cfg.MIN_BLK_SIZE ≤ end_ - start)
    (h31 : end_ - start ≤ 2 ^ 31)
    (hmax : end_ - start ≤ 2 ^ MAX_ORDER cfg)
    (hK : IsRoundUpPow2 (end_ - start) (2 ^ K))
    (hfuel : 32 ≤ fuel) :
    ∃ s', k_mpool_create cfg fuel s cfg.BUDDY start end_ =
        some (if start = cfg.RAM1_START then cfg.MPID_IRAM1 else cfg.MPID_IRAM2, s') ∧
      s'.oob = s.oob ∧
      K ≤ MAX_ORDER cfg ∧
      s'.free_list K = start ∧
      hdr_size s'.mem start = 2 ^ K ∧
      hdr_order s'.mem start = K ∧
      hdr_is_free s'.mem start = 1 ∧
      end_ ≤ start + hdr_size s'.mem start ∧
      (1 < end_ - start → start + hdr_size s'.mem start < end_ + (end_ - start)) ∧
      (start + hdr_size s'.mem start = end_ ↔ ∃ j, end_ - start = 2 ^ j) := by
  have htot : (end_ + WORD - start % WORD) % WORD = end_ - start := by
    unfold WORD at *
    omega
  have hKeq : 2 ^ K = 2 ^ Nat.clog 2 (end_ - start) := hK.eq_clog
  have hKc : K = Nat.clog 2 (end_ - start) :=
    Nat.pow_right_injective (le_refl 2) hKeq
  have hc := clog_le_31 _ h31
  have hK31 : K ≤ 31 := by omega
  have ha : prv_align_to_power_of_two fuel ((end_ + WORD - start % WORD) % WORD) =
      some (2 ^ K) := by
    rw [htot, hKeq]
    exact prv_align_to_power_of_two_clog _ fuel h31 (by omega)
  have hcreate := k_mpool_create_of_align cfg fuel s start end_ (some (2 ^ K)) hstart
    (by rw [htot]; exact hmin) ha
  obtain ⟨hsz, hord, hfree, -, -⟩ := create_init_header cfg s start K hK31
  obtain ⟨-, hge, hleast⟩ := hK
  have hKmax : K ≤ MAX_ORDER cfg :=
    (Nat.pow_le_pow_iff_right (by decide)).mp (hleast _ hmax)
  have hhead := (create_init_heads cfg s start K hK31 hKmax).2
  refine ⟨create_init cfg s start (2 ^ K), hcreate,
    create_init_oob cfg s start K hK31 hKmax, hKmax, hhead, hsz, hord, hfree, ?_, ?_, ?_⟩
  · rw [hsz]
    omega
  · intro h1
    rw [hsz]
    have hKpos : K ≠ 0 := by
      intro h0
      rw [h0] at hge
      simp at hge
      omega
    have hlow : 2 ^ (K - 1) < end_ - start := by
      rw [hKc]
      exact (Nat.pow_lt_iff_lt_clog (by decide)).mpr (by omega)
    have hdouble : 2 ^ K = 2 * 2 ^ (K - 1) := by
      rw [← Nat.pow_succ']
      congr 1
      omega
    omega
  · rw [hsz]
    constructor
    · intro h
      exact ⟨K, by omega⟩
    · rintro ⟨j, hj⟩
      have h1 : 2 ^ K ≤ 2 ^ j := hleast j (by omega)
      omega

/-- C18 amended, on the region `[0x1000, 0x1BB8)` of 3000 bytes: the block registered on
list 12 has size 4096; it contains the region and is not equal to it. -/
theorem create_block_covers_region_witness :
    ∃ s', k_mpool_create demoCfg 40 zeroState demoCfg.BUDDY 4096 7096 =
        some (if 4096 = demoCfg.RAM1_START then demoCfg.MPID_IRAM1 else demoCfg.MPID_IRAM2,
          s') ∧
      s'.oob = zeroState.oob ∧
      12 ≤ MAX_ORDER demoCfg ∧
      s'.free_list 12 = 4096 ∧
      hdr_size s'.mem 4096 = 2 ^ 12 ∧
      hdr_order s'.mem 4096 = 12 ∧
      hdr_is_free s'.mem 4096 = 1 ∧
      7096 ≤ 4096 + hdr_size s'.mem 4096 ∧
      (1 < 7096 - 4096 → 4096 + hdr_size s'.mem 4096 < 7096 + (7096 - 4096)) ∧
      (4096 + hdr_size s'.mem 4096 = 7096 ↔ ∃ j, 7096 - 4096 = 2 ^ j) :=
  create_block_covers_region demoCfg 40 zeroState 4096 7096 12 (Or.inl rfl)
    (by decide) (by decide) (by decide) (by decide) (by decide)
    (IsRoundUpPow2.of_bounds 3000 12 (by decide) (by decide)) (by decide)

/-! ## Counting the free blocks -/

theorem dump_list_chain (m : Nat → Nat) :
    ∀ (nodes : List Nat) (fuel head c : Nat), IsChain m head nodes → nodes.length < fuel →
      c < WORD → dump_list m fuel head c = some ((c + nodes.length) % WORD) := by
  intro nodes
  induction nodes with
  | nil =>
    intro fuel head c hc hf hcw
    cases fuel with
    | zero => simp at hf
    | succ fuel =>
      have h0 : head = 0 := hc
      simp [dump_list, h0, Nat.mod_eq_of_lt hcw]
  | cons x rest ih =>
    intro fuel head c hc hf hcw
    obtain ⟨hne, -, hrest⟩ := hc
    cases fuel with
    | zero => simp at hf
    | succ fuel =>
      have hlen : rest.length < fuel := by
        simp only [List.length_cons] at hf
        omega
      have hw : 0 < WORD := by decide
      have := ih fuel (hdr_next m head) ((c + 1) % WORD) hrest hlen (Nat.mod_lt _ hw)
      simp only [dump_list, ne_eq, hne, not_false_eq_true, if_true, this,
        List.length_cons]
      congr 1
      rw [Nat.mod_add_mod]
      congr 1
      omega

theorem dump_orders_chain (fuel : Nat) (s : State) (nodes : Nat → List Nat) :
    ∀ (n i c : Nat),
      (∀ j, i ≤ j → j < i + n → IsChain s.mem (s.free_list j) (nodes j)) →
      (∀ j, i ≤ j → j < i + n → (nodes j).length < fuel) → c < WORD →
      dump_orders fuel s n i c = some ((c + total_nodes nodes n i) % WORD) := by
  intro n
  induction n with
  | zero =>
    intro i c _ _ hcw
    simp [dump_orders, total_nodes, Nat.mod_eq_of_lt hcw]
  | succ n ih =>
    intro i c hchain hf hcw
    have h1 := dump_list_chain s.mem (nodes i) fuel (s.free_list i) c
      (hchain i (le_refl i) (by omega)) (hf i (le_refl i) (by omega)) hcw
    have hw : 0 < WORD := by decide
    have h2 := ih (i + 1) ((c + (nodes i).length) % WORD)
      (fun j hj hlt => hchain j (by omega) (by omega))
      (fun j hj hlt => hf j (by omega) (by omega)) (Nat.mod_lt _ hw)
    simp only [dump_orders, h1, h2, total_nodes]
    congr 1
    rw [Nat.mod_add_mod]
    congr 1
    omega

/-- C12: in a state whose free lists of order `0` to `MAX_ORDER` are `NULL`-terminated
chains through the nodes `nodes i`, `k_mpool_dump` with a valid pool id returns the
number of nodes of all these lists together, and with any other pool id it returns `0`;
in both cases the state, every header and every free-list head, is left as it was.  The
fuel has to cover the longest list, and the count has to be below `2^31`, the range of the
`int` in which the `U32` counter is returned. -/
theorem dump_counts_free_blocks (cfg : Config) (fuel : Nat) (s : State) (mpid : Int)
    (nodes : Nat → List Nat)
    (hchain : ∀ i, i ≤ MAX_ORDER cfg → IsChain s.mem (s.free_list i) (nodes i))
    (hfuel : ∀ i, i ≤ MAX_ORDER cfg → (nodes i).length < fuel)
    (hfit : total_nodes nodes (MAX_ORDER cfg + 1) 0 < 2 ^ 31) :
    k_mpool_dump cfg fuel s mpid =
      some (if mpid ≠ cfg.MPID_IRAM1 ∧ mpid ≠ cfg.MPID_IRAM2 then 0
        else (total_nodes nodes (MAX_ORDER cfg + 1) 0 : Int), s) := by
  by_cases hid : mpid ≠ cfg.MPID_IRAM1 ∧ mpid ≠ cfg.MPID_IRAM2
  · simp only [k_mpool_dump, if_pos hid]
  · have h := dump_orders_chain fuel s nodes (MAX_ORDER cfg + 1) 0 0
      (fun j _ hlt => hchain j (by omega)) (fun j _ hlt => hfuel j (by omega))
      (by decide)
    have hlt : total_nodes nodes (MAX_ORDER cfg + 1) 0 < 2147483648 := hfit
    have hmod : (0 + total_nodes nodes (MAX_ORDER cfg + 1) 0) % WORD =
        total_nodes nodes (MAX_ORDER cfg + 1) 0 := by
      rw [Nat.zero_add]
      apply Nat.mod_eq_of_lt
      unfold WORD
      omega
    rw [hmod] at h
    simp only [k_mpool_dump, if_neg hid, h, as_int, if_pos hlt]

theorem dump_counts_free_blocks_witness :
    k_mpool_dump demoCfg 3 tailBuddyState demoCfg.MPID_IRAM1 =
      some (if demoCfg.MPID_IRAM1 ≠ demoCfg.MPID_IRAM1 ∧
          demoCfg.MPID_IRAM1 ≠ demoCfg.MPID_IRAM2 then 0
        else (total_nodes (fun i => if i = 5 then [4224, 4128] else [])
          (MAX_ORDER demoCfg + 1) 0 : Int), tailBuddyState) ∧
    total_nodes (fun i => if i = 5 then [4224, 4128] else []) (MAX_ORDER demoCfg + 1) 0 = 2 :=
  ⟨dump_counts_free_blocks demoCfg 3 tailBuddyState demoCfg.MPID_IRAM1
    (fun i => if i = 5 then [4224, 4128] else []) (by decide) (by decide) (by decide),
    by decide⟩

/-! ## The static stacks -/

theorem and_four (x : Nat) : x &&& 4 = 4 * (x / 4 % 2) := by
  have h := Nat.and_two_pow x 2
  have h2 : (x.testBit 2).toNat = x / 2 ^ 2 % 2 := Nat.toNat_testBit x 2
  rw [h2] at h
  simpa [Nat.mul_comm] using h

theorem stack_row_pointer (base row n : Nat) (h8 : 8 ∣ base) (h0 : 0 < base)
    (hw : base + n * (row * 4) < WORD) :
    8 ∣ (if (base + n * (row * 4)) % WORD &&& 4 ≠ 0
        then ((base + n * (row * 4)) % WORD + WORD - 4) % WORD
        else (base + n * (row * 4)) % WORD) ∧
    (if (base + n * (row * 4)) % WORD &&& 4 ≠ 0
        then ((base + n * (row * 4)) % WORD + WORD - 4) % WORD
        else (base + n * (row * 4)) % WORD) ≠ 0 := by
  obtain ⟨b, rfl⟩ := h8
  have hq : n * (row * 4) = 4 * (n * row) := by ring
  rw [hq] at hw ⊢
  generalize n * row = q at hw ⊢
  rw [Nat.mod_eq_of_lt hw, and_four]
  unfold WORD at *
  split
  · constructor <;> omega
  · constructor <;> omega

/-- C11: with the array `g_k_stacks` at a non-null address that is a multiple of 8 and
with its end inside the 32-bit address space, `k_alloc_k_stack(tid)` returns `NULL` with
`errno = EAGAIN` if and only if `tid >= MAX_TASKS`, and for every smaller `tid` it
returns a non-null multiple of 8 and leaves `errno` alone; the same holds of
`k_alloc_p_stack` with `g_p_stacks` and `NUM_TASKS`.  A row of either array is
`SIZE >> 2` words of 4 bytes. -/
theorem stack_alloc_null_iff_out_of_range (cfg : StackConfig) (errno : Int) (tid : Nat)
    (hk8 : 8 ∣ cfg.g_k_stacks) (hk0 : 0 < cfg.g_k_stacks)
    (hkw : cfg.g_k_stacks + cfg.MAX_TASKS * ((cfg.KERN_STACK_SIZE >>> 2) * 4) < WORD)
    (hp8 : 8 ∣ cfg.g_p_stacks) (hp0 : 0 < cfg.g_p_stacks)
    (hpw : cfg.g_p_stacks + cfg.NUM_TASKS * ((cfg.PROC_STACK_SIZE >>> 2) * 4) < WORD) :
    (((k_alloc_k_stack cfg errno tid).1 = 0 ∧ (k_alloc_k_stack cfg errno tid).2 = cfg.EAGAIN)
      ↔ cfg.MAX_TASKS ≤ tid) ∧
    (tid < cfg.MAX_TASKS → 8 ∣ (k_alloc_k_stack cfg errno tid).1 ∧
      (k_alloc_k_stack cfg errno tid).1 ≠ 0 ∧ (k_alloc_k_stack cfg errno tid).2 = errno) ∧
    (((k_alloc_p_stack cfg errno tid).1 = 0 ∧ (k_alloc_p_stack cfg errno tid).2 = cfg.EAGAIN)
      ↔ cfg.NUM_TASKS ≤ tid) ∧
    (tid < cfg.NUM_TASKS → 8 ∣ (k_alloc_p_stack cfg errno tid).1 ∧
      (k_alloc_p_stack cfg errno tid).1 ≠ 0 ∧ (k_alloc_p_stack cfg errno tid).2 = errno) := by
  have key : ∀ (base row lim : Nat), 8 ∣ base → 0 < base → base + lim * (row * 4) < WORD →
      tid < lim →
      8 ∣ (if (base + (tid + 1) * (row * 4)) % WORD &&& 4 ≠ 0
        then ((base + (tid + 1) * (row * 4)) % WORD + WORD - 4) % WORD
        else (base + (tid + 1) * (row * 4)) % WORD) ∧
      (if (base + (tid + 1) * (row * 4)) % WORD &&& 4 ≠ 0
        then ((base + (tid + 1) * (row * 4)) % WORD + WORD - 4) % WORD
        else (base + (tid + 1) * (row * 4)) % WORD) ≠ 0 := by
    intro base row lim h8 h0 hw hlt
    have hmul : (tid + 1) * (row * 4) ≤ lim * (row * 4) :=
      Nat.mul_le_mul_right _ (by omega)
    exact stack_row_pointer base row (tid + 1) h8 h0 (by omega)
  have hk : tid < cfg.MAX_TASKS → 8 ∣ (k_alloc_k_stack cfg errno tid).1 ∧
      (k_alloc_k_stack cfg errno tid).1 ≠ 0 ∧ (k_alloc_k_stack cfg errno tid).2 = errno := by
    intro hlt
    have h := key cfg.g_k_stacks (cfg.KERN_STACK_SIZE >>> 2) cfg.MAX_TASKS hk8 hk0 hkw hlt
    have hn : ¬ tid ≥ cfg.MAX_TASKS := by omega
    simp only [k_alloc_k_stack, if_neg hn]
    exact ⟨h.1, h.2, trivial⟩
  have hp : tid < cfg.NUM_TASKS → 8 ∣ (k_alloc_p_stack cfg errno tid).1 ∧
      (k_alloc_p_stack cfg errno tid).1 ≠ 0 ∧ (k_alloc_p_stack cfg errno tid).2 = errno := by
    intro hlt
    have h := key cfg.g_p_stacks (cfg.PROC_STACK_SIZE >>> 2) cfg.NUM_TASKS hp8 hp0 hpw hlt
    have hn : ¬ tid ≥ cfg.NUM_TASKS := by omega
    simp only [k_alloc_p_stack, if_neg hn]
    exact ⟨h.1, h.2, trivial⟩
  refine ⟨⟨?_, ?_⟩, hk, ⟨?_, ?_⟩, hp⟩
  · intro h
    by_contra hlt
    exact (hk (by omega)).2.1 h.1
  · intro hge
    simp [k_alloc_k_stack, hge]
  · intro h
    by_contra hlt
    exact (hp (by omega)).2.1 h.1
  · intro hge
    simp [k_alloc_p_stack, hge]

theorem stack_alloc_null_iff_out_of_range_witness :
    ((((k_alloc_k_stack demoStacks 0 3).1 = 0 ∧
        (k_alloc_k_stack demoStacks 0 3).2 = demoStacks.EAGAIN)
      ↔ demoStacks.MAX_TASKS ≤ 3) ∧
    (3 < demoStacks.MAX_TASKS → 8 ∣ (k_alloc_k_stack demoStacks 0 3).1 ∧
      (k_alloc_k_stack demoStacks 0 3).1 ≠ 0 ∧ (k_alloc_k_stack demoStacks 0 3).2 = 0) ∧
    (((k_alloc_p_stack demoStacks 0 3).1 = 0 ∧
        (k_alloc_p_stack demoStacks 0 3).2 = demoStacks.EAGAIN)
      ↔ demoStacks.NUM_TASKS ≤ 3) ∧
    (3 < demoStacks.NUM_TASKS → 8 ∣ (k_alloc_p_stack demoStacks 0 3).1 ∧
      (k_alloc_p_stack demoStacks 0 3).1 ≠ 0 ∧ (k_alloc_p_stack demoStacks 0 3).2 = 0)) ∧
    k_alloc_k_stack demoStacks 0 3 = (34816, 0) ∧
    k_alloc_k_stack demoStacks 0 4 = (0, 11) ∧
    k_alloc_p_stack demoStacks 0 3 = (0, 11) :=
  ⟨stack_alloc_null_iff_out_of_range demoStacks 0 3 (by decide) (by decide) (by decide)
    (by decide) (by decide) (by decide), by decide, by decide, by decide⟩

end MaxxRTOS
